import Mathlib

/-!
Verification of the alignment coordinate reconstruction engine of
Bio/Align/tabular.py (tabular BLAST / FASTA output support).

The decoders parse_btop and parse_cigar, the coordinate rebasing and the
sequence reconstruction of _read_next_alignment are embedded as executable
Lean functions.  Python exceptions (ValueError from int, AssertionError from
assert, TypeError from arithmetic on None, UnboundLocalError) are modelled by
the Res error constructor; the error message records the exception kind.
-/

namespace BioTabular

/-- Result of a fallible computation; Res.err models a raised Python
exception, the string naming the exception kind. -/
inductive Res (α : Type) where
  | ok (a : α)
  | err (msg : String)
deriving DecidableEq, Repr

/-- Alignment states used when parsing a BTOP string (source class State). -/
inductive PState where
  | MATCH
  | QUERY_GAP
  | TARGET_GAP
  | NONE
deriving DecidableEq, Repr

/-- Numeric value of a decimal digit character. -/
def digitVal (c : Char) : Nat := c.toNat - 48

/-- Value of a big-endian list of decimal digit characters, as computed by
the Python int() builtin on a digit string. -/
def digitsVal (ds : List Char) : Nat := ds.foldl (fun a c => 10 * a + digitVal c) 0

/-- A token produced by the BTOP tokenizer re.findall of the pattern
alternating a two-character class pair with a decimal run: either a decimal
run length or a pair of characters from the class A-Z, dash, star. -/
inductive BTok where
  | num (n : Nat)
  | pair (c1 c2 : Char)
deriving DecidableEq, Repr

/-- Membership in the BTOP character class: uppercase letters, dash, star. -/
def btopClass (c : Char) : Bool :=
  (decide ('A' ≤ c) && decide (c ≤ 'Z')) || decide (c = '-') || decide (c = '*')

/-- Emit the pending decimal run, if any, as a numeric token. -/
def flushB : Option Nat → List BTok
  | none => []
  | some n => [BTok.num n]

/-- BTOP tokenizer: the left-to-right scan of re.findall with the two-char
class pair tried first, then a greedy decimal run, unmatched characters
skipped.  The accumulator holds the decimal run in progress. -/
def tokenizeBtopAux : List Char → Option Nat → List BTok
  | [], acc => flushB acc
  | [c], acc =>
    if c.isDigit then flushB (some (10 * acc.getD 0 + digitVal c)) else flushB acc
  | c :: c2 :: cs, acc =>
    if c.isDigit then tokenizeBtopAux (c2 :: cs) (some (10 * acc.getD 0 + digitVal c))
    else if btopClass c && btopClass c2 then
      flushB acc ++ (BTok.pair c c2 :: tokenizeBtopAux cs none)
    else
      flushB acc ++ tokenizeBtopAux (c2 :: cs) none

/-- Tokenize a BTOP string. -/
def tokenizeBtop (s : List Char) : List BTok := tokenizeBtopAux s none

/-- The BTOP decoding loop of parse_btop.  The column list is carried with the
most recent column separate (last) and the earlier columns reversed (prev),
mirroring the source appends to and in-place updates of the last element. -/
def btopGo : List BTok → Nat × Nat → List (Nat × Nat) → PState → List (Nat × Nat)
  | [], last, prev, _ => (last :: prev).reverse
  | BTok.pair c1 c2 :: ts, last, prev, st =>
      if c1 = '-' then
        if st = PState.QUERY_GAP then
          btopGo ts (last.1 + 1, last.2) prev PState.QUERY_GAP
        else
          btopGo ts (last.1 + 1, last.2) (last :: prev) PState.QUERY_GAP
      else if c2 = '-' then
        if st = PState.TARGET_GAP then
          btopGo ts (last.1, last.2 + 1) prev PState.TARGET_GAP
        else
          btopGo ts (last.1, last.2 + 1) (last :: prev) PState.TARGET_GAP
      else
        if st = PState.MATCH then
          btopGo ts (last.1 + 1, last.2 + 1) prev PState.MATCH
        else
          btopGo ts (last.1 + 1, last.2 + 1) (last :: prev) PState.MATCH
  | BTok.num n :: ts, last, prev, st =>
      if st = PState.MATCH then
        btopGo ts (last.1 + n, last.2 + n) prev PState.MATCH
      else
        btopGo ts (last.1 + n, last.2 + n) (last :: prev) PState.MATCH

/-- parse_btop: decode a BTOP string into the list of coordinate-matrix
columns (target coordinate, query coordinate). -/
def parse_btop (s : String) : List (Nat × Nat) :=
  btopGo (tokenizeBtop s.data) (0, 0) [] PState.NONE

/-- A token produced by the CIGAR tokenizer re.findall of the pattern
alternating M, D, I and a decimal run: an operation letter or a decimal run
length. -/
inductive CTok where
  | num (n : Nat)
  | op (c : Char)
deriving DecidableEq, Repr

/-- Emit the pending decimal run, if any, as a numeric token. -/
def flushC : Option Nat → List CTok
  | none => []
  | some n => [CTok.num n]

/-- CIGAR tokenizer: the left-to-right scan of re.findall, matching one of
the letters M, D, I or a greedy decimal run, skipping other characters. -/
def tokenizeCigarAux : List Char → Option Nat → List CTok
  | [], acc => flushC acc
  | c :: cs, acc =>
    if c.isDigit then tokenizeCigarAux cs (some (10 * acc.getD 0 + digitVal c))
    else if c = 'M' ∨ c = 'D' ∨ c = 'I' then
      flushC acc ++ (CTok.op c :: tokenizeCigarAux cs none)
    else
      flushC acc ++ tokenizeCigarAux cs none

/-- Tokenize a CIGAR string. -/
def tokenizeCigar (s : List Char) : List CTok := tokenizeCigarAux s none

/-- The pairing zip(tokens with even index, tokens with odd index): adjacent
tokens are paired, a trailing unpaired token is dropped. -/
def pairUp : List CTok → List (CTok × CTok)
  | a :: b :: rest => (a, b) :: pairUp rest
  | _ => []

/-- One CIGAR (length, operation) step on the running coordinates: the
if-elif chain on the operation token of parse_cigar.  An operation token
other than M, I, D (which the source compares as strings, so a numeric token
in operation position also falls through) leaves both coordinates unchanged. -/
def cigarStep (c : Nat × Nat) (n : Nat) (ot : CTok) : Nat × Nat :=
  match ot with
  | CTok.op ch =>
    if ch = 'M' then (c.1 + n, c.2 + n)
    else if ch = 'I' then (c.1 + n, c.2)
    else if ch = 'D' then (c.1, c.2 + n)
    else c
  | CTok.num _ => c

/-- The CIGAR decoding loop of parse_cigar over the zipped token pairs.  The
source converts the length token with int(), which raises ValueError when an
operation letter occupies the length position: modelled by the none result.
After every pair a column is appended. -/
def cigarGo : List (CTok × CTok) → Nat → Nat → List (Nat × Nat) → Option (List (Nat × Nat))
  | [], _, _, cols => some cols.reverse
  | (lt, ot) :: ps, t, q, cols =>
    match lt with
    | CTok.num n =>
      let c := cigarStep (t, q) n ot
      cigarGo ps c.1 c.2 (c :: cols)
    | CTok.op _ => none

/-- parse_cigar: decode a CIGAR string into the list of coordinate-matrix
columns, or none when the int() conversion of a length token raises. -/
def parse_cigar (s : String) : Option (List (Nat × Nat)) :=
  cigarGo (pairUp (tokenizeCigar s.data)) 0 0 [(0, 0)]

/-- Python int() on an optionally signed decimal string; none models the
ValueError raised on other inputs.  (Whitespace trimming and underscore
separators of the Python builtin are not modelled; no field value in the
claims uses them.) -/
def parseInt (s : String) : Option Int :=
  match s.data with
  | '-' :: ds =>
    if ds.isEmpty then none
    else if ds.all Char.isDigit then some (-(digitsVal ds : Int)) else none
  | '+' :: ds =>
    if ds.isEmpty then none
    else if ds.all Char.isDigit then some (digitsVal ds : Int) else none
  | ds =>
    if ds.isEmpty then none
    else if ds.all Char.isDigit then some (digitsVal ds : Int) else none

/-- The two rows (target row, query row) of the numpy coordinate matrix built
from the decoded column list, as signed integers. -/
def rowsOfCols (cols : List (Nat × Nat)) : List Int × List Int :=
  (cols.map (fun c => (c.1 : Int)), cols.map (fun c => (c.2 : Int)))

/-- The coordinate rebasing of _read_next_alignment: the query-row transform
applied whenever coordinates are present (forward strand adds query_start to
the query row, otherwise each query value v becomes query_start - v + 1), and
the target-row transform coordinates[0] += target_start applied additionally
when the program is neither TBLASTN nor TBLASTX.  A missing offset makes the
Python comparison or numpy addition raise TypeError. -/
def rebaseCoordinates (program : String) (query_start query_end target_start : Option Int)
    (coordinates : Option (List Int × List Int)) : Res (Option (List Int × List Int)) :=
  match coordinates with
  | none => Res.ok none
  | some (trow, qrow) =>
    match query_start, query_end with
    | some qs, some qe =>
      let qrow2 := if qs < qe then qrow.map (fun v => v + qs)
                   else qrow.map (fun v => qs - v + 1)
      if program = "TBLASTN" ∨ program = "TBLASTX" then Res.ok (some (trow, qrow2))
      else
        match target_start with
        | some t => Res.ok (some (trow.map (fun v => v + t), qrow2))
        | none => Res.err "TypeError"
    | _, _ => Res.err "TypeError"

/-- Specification-side definition (spec section 4.3, Coordinate Normalizer):
the query-row rebasing rule, written from the words of the spec for
comparison with the source translation. -/
def queryRebaseSpec (qs qe : Int) (qrow : List Int) : List Int :=
  if qs < qe then qrow.map (fun v => v + qs) else qrow.map (fun v => qs - v + 1)

/-- Specification-side definition (spec section 4.3, Coordinate Normalizer):
the target-row rebasing rule, written from the words of the spec for
comparison with the source translation. -/
def targetRebaseSpec (t : Int) (trow : List Int) : List Int := trow.map (fun v => v + t)

/-- The sequence objects built by _read_next_alignment, abstracting the
Bio.Seq constructors used there: None, Seq(None, length=n), Seq(data) and
Seq(dict with one anchored substring, length=n). -/
inductive SeqRep where
  | absent
  | lengthOnly (len : Int)
  | full (s : String)
  | anchored (start : Int) (s : String) (len : Option Int)
deriving DecidableEq, Repr

/-- Remove every dash, as the Python replace of dash by the empty string. -/
def stripDashes (s : String) : String := String.mk (s.data.filter (fun c => c ≠ '-'))

/-- The query sequence reconstruction of _read_next_alignment (source lines
250 to 266): without a substring, a length-only or absent sequence; with a
substring, dashes are stripped, then TBLASTN asserts that the stripped length
equals query_end - query_start and anchors the substring, TBLASTX uses the
stripped substring directly with no length check, and any other program name
raises.  A missing offset makes the Python subtraction raise TypeError. -/
def reconstructQuerySeq (program : String) (query_sequence : Option String)
    (query_start query_end query_size : Option Int) : Res SeqRep :=
  match query_sequence with
  | none =>
    match query_size with
    | none => Res.ok SeqRep.absent
    | some n => Res.ok (SeqRep.lengthOnly n)
  | some qseq =>
    let stripped := stripDashes qseq
    if program = "TBLASTN" then
      match query_start, query_end with
      | some s, some e =>
        if (stripped.length : Int) = e - s then
          Res.ok (SeqRep.anchored s stripped query_size)
        else Res.err "AssertionError"
      | _, _ => Res.err "TypeError"
    else if program = "TBLASTX" then
      Res.ok (SeqRep.full stripped)
    else Res.err "Exception: Unknown program"

/-- The target sequence reconstruction of _read_next_alignment (source lines
272 to 293): under TBLASTN and TBLASTX the stripped substring is used with no
length check; under any other program, without a substring the sequence is
absent or length-only, and with a substring plus both offsets the stripped
length is asserted equal to target_end - target_start and the substring
anchored; with a substring but a missing offset the source leaves the
target_seq variable unassigned and the later use raises. -/
def reconstructTargetSeq (program : String) (target_sequence : Option String)
    (target_start target_end : Option Int) : Res SeqRep :=
  if program = "TBLASTN" ∨ program = "TBLASTX" then
    match target_sequence with
    | none => Res.ok SeqRep.absent
    | some tseq => Res.ok (SeqRep.full (stripDashes tseq))
  else
    match target_sequence with
    | none =>
      match target_end with
      | none => Res.ok SeqRep.absent
      | some e => Res.ok (SeqRep.lengthOnly e)
    | some tseq =>
      let stripped := stripDashes tseq
      match target_start, target_end with
      | some s, some e =>
        if (stripped.length : Int) = e - s then
          Res.ok (SeqRep.anchored s stripped (some e))
        else Res.err "AssertionError"
      | _, _ => Res.err "UnboundLocalError"

/-- An annotation value: integers are stored parsed, floating-point and
plain-text fields keep the raw column text (float semantics are not
modelled), and the TBLAST target block stores possibly missing offsets. -/
inductive AnnVal where
  | intV (n : Int)
  | rawV (s : String)
  | optIntV (o : Option Int)
deriving DecidableEq, Repr

/-- Header-scoped session context read by _read_next_alignment: the program
name from the metadata and the query id, description and size remembered
from the header block. -/
structure RowCtx where
  program : String
  query_id : Option String
  query_description : Option String
  query_size : Option Int
deriving DecidableEq, Repr

/-- The local variables _read_next_alignment accumulates while dispatching
the fields of one row (source lines 116 to 136); annotation dictionaries are
modelled as association lists in insertion order. -/
structure RowState where
  alignment_length : Option Int := none
  identical : Option Int := none
  score : Option Int := none
  query_id : Option String := none
  target_id : Option String := none
  query_start : Option Int := none
  query_end : Option Int := none
  target_start : Option Int := none
  target_end : Option Int := none
  query_sequence : Option String := none
  target_sequence : Option String := none
  target_length : Option Int := none
  coordinates : Option (List (Nat × Nat)) := none
  query_size : Option Int := none
  annotations : List (String × AnnVal) := []
  query_annotations : List (String × AnnVal) := []
  target_annotations : List (String × AnnVal) := []
deriving DecidableEq, Repr

/-- The initial row state: query_size is seeded from the header context. -/
def initState (ctx : RowCtx) : RowState := { query_size := ctx.query_size }

/-- One step of the field dispatch chain of _read_next_alignment (source
lines 137 to 235), routing one (field name, raw value) pair.  int fields go
through parseInt and raise ValueError on bad input; float fields keep the raw
text; an unrecognized field name raises. -/
def dispatchField (ctx : RowCtx) (st : RowState) (field column : String) : Res RowState :=
  if field = "query id" then
    match ctx.query_id with
    | none => Res.ok { st with query_id := some column }
    | some qid =>
      if column = qid then Res.ok { st with query_id := some column }
      else Res.err "AssertionError"
  else if field = "subject id" then Res.ok { st with target_id := some column }
  else if field = "% identity" then
    Res.ok { st with annotations := st.annotations ++ [(field, AnnVal.rawV column)] }
  else if field = "alignment length" then
    match parseInt column with
    | none => Res.err "ValueError"
    | some n => Res.ok { st with alignment_length := some n }
  else if field = "mismatches" then
    match parseInt column with
    | none => Res.err "ValueError"
    | some n => Res.ok { st with annotations := st.annotations ++ [(field, AnnVal.intV n)] }
  else if field = "gap opens" then
    match parseInt column with
    | none => Res.err "ValueError"
    | some n => Res.ok { st with annotations := st.annotations ++ [(field, AnnVal.intV n)] }
  else if field = "q. start" then
    match parseInt column with
    | none => Res.err "ValueError"
    | some n => Res.ok { st with query_start := some (n - 1) }
  else if field = "q. end" then
    match parseInt column with
    | none => Res.err "ValueError"
    | some n => Res.ok { st with query_end := some n }
  else if field = "s. start" then
    match parseInt column with
    | none => Res.err "ValueError"
    | some n => Res.ok { st with target_start := some (n - 1) }
  else if field = "s. end" then
    match parseInt column with
    | none => Res.err "ValueError"
    | some n => Res.ok { st with target_end := some n }
  else if field = "evalue" then
    Res.ok { st with annotations := st.annotations ++ [("evalue", AnnVal.rawV column)] }
  else if field = "bit score" then
    Res.ok { st with annotations := st.annotations ++ [("bit score", AnnVal.rawV column)] }
  else if field = "BTOP" then
    Res.ok { st with coordinates := some (parse_btop column) }
  else if field = "aln_code" then
    match parse_cigar column with
    | none => Res.err "ValueError"
    | some cols => Res.ok { st with coordinates := some cols }
  else if field = "query gi" then
    Res.ok { st with query_annotations := st.query_annotations ++ [("gi", AnnVal.rawV column)] }
  else if field = "query acc." then
    Res.ok { st with query_annotations := st.query_annotations ++ [("acc.", AnnVal.rawV column)] }
  else if field = "query acc.ver" then
    Res.ok { st with query_annotations := st.query_annotations ++ [("acc.ver", AnnVal.rawV column)] }
  else if field = "query length" then
    match parseInt column with
    | none => Res.err "ValueError"
    | some n =>
      match st.query_size with
      | none => Res.ok { st with query_size := some n }
      | some m => if m = n then Res.ok st else Res.err "AssertionError"
  else if field = "subject ids" then
    Res.ok { st with target_annotations := st.target_annotations ++ [("ids", AnnVal.rawV column)] }
  else if field = "subject gi" then
    Res.ok { st with target_annotations := st.target_annotations ++ [("gi", AnnVal.rawV column)] }
  else if field = "subject gis" then
    Res.ok { st with target_annotations := st.target_annotations ++ [("gis", AnnVal.rawV column)] }
  else if field = "subject acc." then
    Res.ok { st with target_annotations := st.target_annotations ++ [("acc.", AnnVal.rawV column)] }
  else if field = "subject accs." then
    Res.ok { st with target_annotations := st.target_annotations ++ [("accs.", AnnVal.rawV column)] }
  else if field = "subject tax ids" then
    Res.ok { st with target_annotations := st.target_annotations ++ [("tax ids", AnnVal.rawV column)] }
  else if field = "subject sci names" then
    Res.ok { st with target_annotations := st.target_annotations ++ [("sci names", AnnVal.rawV column)] }
  else if field = "subject com names" then
    Res.ok { st with target_annotations := st.target_annotations ++ [("com names", AnnVal.rawV column)] }
  else if field = "subject blast names" then
    Res.ok { st with target_annotations := st.target_annotations ++ [("blast names", AnnVal.rawV column)] }
  else if field = "subject super kingdoms" then
    Res.ok { st with target_annotations := st.target_annotations ++ [("super kingdoms", AnnVal.rawV column)] }
  else if field = "subject title" then
    Res.ok { st with target_annotations := st.target_annotations ++ [("title", AnnVal.rawV column)] }
  else if field = "subject titles" then
    Res.ok { st with target_annotations := st.target_annotations ++ [("titles", AnnVal.rawV column)] }
  else if field = "subject strand" then
    Res.ok { st with target_annotations := st.target_annotations ++ [("strand", AnnVal.rawV column)] }
  else if field = "% subject coverage" then
    Res.ok { st with target_annotations := st.target_annotations ++ [("% coverage", AnnVal.rawV column)] }
  else if field = "subject acc.ver" then
    Res.ok { st with target_annotations := st.target_annotations ++ [("acc.ver", AnnVal.rawV column)] }
  else if field = "subject length" then
    match parseInt column with
    | none => Res.err "ValueError"
    | some n => Res.ok { st with target_length := some n }
  else if field = "query seq" then Res.ok { st with query_sequence := some column }
  else if field = "subject seq" then Res.ok { st with target_sequence := some column }
  else if field = "score" then
    match parseInt column with
    | none => Res.err "ValueError"
    | some n => Res.ok { st with score := some n }
  else if field = "identical" then
    match parseInt column with
    | none => Res.err "ValueError"
    | some n =>
      Res.ok { st with identical := some n,
                       annotations := st.annotations ++ [(field, AnnVal.intV n)] }
  else if field = "positives" then
    match parseInt column with
    | none => Res.err "ValueError"
    | some n => Res.ok { st with annotations := st.annotations ++ [(field, AnnVal.intV n)] }
  else if field = "gaps" then
    match parseInt column with
    | none => Res.err "ValueError"
    | some n => Res.ok { st with annotations := st.annotations ++ [(field, AnnVal.intV n)] }
  else if field = "% positives" then
    Res.ok { st with annotations := st.annotations ++ [(field, AnnVal.rawV column)] }
  else if field = "% hsp coverage" then
    Res.ok { st with annotations := st.annotations ++ [(field, AnnVal.rawV column)] }
  else if field = "query/sbjct frames" then
    Res.ok { st with annotations := st.annotations ++ [(field, AnnVal.rawV column)] }
  else if field = "query frame" then
    Res.ok { st with query_annotations := st.query_annotations ++ [("frame", AnnVal.rawV column)] }
  else if field = "sbjct frame" then
    Res.ok { st with target_annotations := st.target_annotations ++ [("frame", AnnVal.rawV column)] }
  else Res.err ("ValueError: Unexpected field " ++ field)

/-- The dispatch loop over the zipped (field name, raw value) pairs. -/
def dispatchFields (ctx : RowCtx) : List (String × String) → RowState → Res RowState
  | [], st => Res.ok st
  | (f, c) :: rest, st =>
    match dispatchField ctx st f c with
    | Res.ok st2 => dispatchFields ctx rest st2
    | Res.err e => Res.err e

/-- The finished per-row alignment object: the two sequence holders with
their identifiers and annotations, the rebased coordinate matrix and the
alignment-level annotations and score. -/
structure AlignRec where
  target_seq : SeqRep
  target_id : Option String
  target_annotations : List (String × AnnVal)
  query_seq : SeqRep
  query_id : Option String
  query_description : Option String
  query_annotations : List (String × AnnVal)
  coordinates : Option (List Int × List Int)
  annotations : List (String × AnnVal)
  score : Option Int
deriving DecidableEq, Repr

/-- The post-dispatch assembly of _read_next_alignment (source lines 236 to
302): coordinate rebasing, then query and target sequence reconstruction,
then packaging.  The source interleaves the target-row rebasing with the
sequence reconstruction; the computations are independent, but when two
exceptions apply the reported kind may differ from the source order. -/
def assembleRow (ctx : RowCtx) (st : RowState) : Res AlignRec :=
  match rebaseCoordinates ctx.program st.query_start st.query_end st.target_start
      (st.coordinates.map rowsOfCols) with
  | Res.err e => Res.err e
  | Res.ok coords =>
    let annots :=
      match st.coordinates, st.alignment_length with
      | none, some al => st.annotations ++ [("alignment length", AnnVal.intV al)]
      | _, _ => st.annotations
    let qannots0 :=
      match st.coordinates with
      | none =>
        (match st.query_start with
         | some qs => [("start", AnnVal.intV qs)]
         | none => []) ++
        (match st.query_end with
         | some qe => [("end", AnnVal.intV qe)]
         | none => [])
      | some _ => []
    match reconstructQuerySeq ctx.program st.query_sequence st.query_start st.query_end
        st.query_size with
    | Res.err e => Res.err e
    | Res.ok qseq =>
      let qannots1 :=
        if ctx.program = "TBLASTX" ∧ st.query_sequence ≠ none then
          [("start", AnnVal.optIntV st.query_start), ("end", AnnVal.optIntV st.query_end)]
        else []
      match reconstructTargetSeq ctx.program st.target_sequence st.target_start
          st.target_end with
      | Res.err e => Res.err e
      | Res.ok tseq =>
        let tannots :=
          if ctx.program = "TBLASTN" ∨ ctx.program = "TBLASTX" then
            st.target_annotations ++
              [("start", AnnVal.optIntV st.target_start),
               ("end", AnnVal.optIntV st.target_end),
               ("length", AnnVal.optIntV st.target_length)]
          else st.target_annotations
        Res.ok { target_seq := tseq, target_id := st.target_id,
                 target_annotations := tannots, query_seq := qseq,
                 query_id := st.query_id, query_description := ctx.query_description,
                 query_annotations := st.query_annotations ++ qannots0 ++ qannots1,
                 coordinates := coords, annotations := annots, score := st.score }

/-- Processing of one data row by _read_next_alignment: the assertion that
the tab-separated value count equals the declared field-name count comes
first (source line 133), before any field is dispatched; only then the
dispatch loop and the assembly run. -/
def readRow (ctx : RowCtx) (fields columns : List String) : Res AlignRec :=
  if columns.length = fields.length then
    match dispatchFields ctx (fields.zip columns) (initState ctx) with
    | Res.ok st => assembleRow ctx st
    | Res.err e => Res.err e
  else Res.err "AssertionError"

/-- The kind of operation run a pair of adjacent coordinate columns encodes:
both coordinates advance (a match or mismatch run), only the target advances
(a gap in the query), only the query advances (a gap in the target), or
neither advances (a redundant column). -/
inductive RunKind where
  | matchRun
  | queryGapRun
  | targetGapRun
deriving DecidableEq, Repr

/-- Classify the step from column a to column b; none marks a redundant
column that advances neither coordinate. -/
def colKind (a b : Nat × Nat) : Option RunKind :=
  if 0 < b.1 - a.1 then
    if 0 < b.2 - a.2 then some RunKind.matchRun else some RunKind.queryGapRun
  else
    if 0 < b.2 - a.2 then some RunKind.targetGapRun else none

/-- The kinds of all adjacent column pairs of a column list, in order. -/
def kindsOf : List (Nat × Nat) → List (Option RunKind)
  | a :: b :: rest => colKind a b :: kindsOf (b :: rest)
  | _ => []

/-- The kinds of all adjacent column pairs of a column list stored newest
first, as the btopGo loop carries it. -/
def kindsRev : List (Nat × Nat) → List (Option RunKind)
  | a :: b :: rest => colKind b a :: kindsRev (b :: rest)
  | _ => []

/-- Every adjacent column pair advances at least one coordinate. -/
def allSome (l : List (Option RunKind)) : Bool := l.all Option.isSome

/-- Adjacent entries all differ: no two consecutive column pairs encode the
same kind of run. -/
def altOK : List (Option RunKind) → Bool
  | a :: b :: rest => decide (a ≠ b) && altOK (b :: rest)
  | _ => true

/-- The run-length merging invariant on a column list: no column is
redundant, and consecutive column pairs encode distinct run kinds. -/
def mergedOK (cols : List (Nat × Nat)) : Bool :=
  allSome (kindsOf cols) && altOK (kindsOf cols)

/-- Both coordinate rows are non-decreasing along the column list. -/
def monoCols : List (Nat × Nat) → Bool
  | a :: b :: rest => (decide (a.1 ≤ b.1) && decide (a.2 ≤ b.2)) && monoCols (b :: rest)
  | _ => true

/-- Both coordinate rows are non-increasing along a newest-first list: the
internal form of monoCols used while the btopGo loop runs. -/
def revMono : List (Nat × Nat) → Bool
  | a :: b :: rest => (decide (b.1 ≤ a.1) && decide (b.2 ≤ a.2)) && revMono (b :: rest)
  | _ => true

/-- A numeric BTOP token is positive (a zero-length run such as the token 0
creates a redundant column and is excluded from the merging invariant). -/
def posTok : BTok → Bool
  | BTok.num n => decide (0 < n)
  | BTok.pair _ _ => true

/-- The relation the btopGo loop maintains between its state and the last
two columns: in state NONE nothing was pushed yet; otherwise the previous
list is nonempty and the step from its head to the last column has exactly
the shape of the state. -/
def goLink : PState → Nat × Nat → List (Nat × Nat) → Prop
  | PState.NONE, _, prev => prev = []
  | PState.MATCH, last, prev => ∃ hd tl, prev = hd :: tl ∧ hd.1 < last.1 ∧ hd.2 < last.2
  | PState.QUERY_GAP, last, prev => ∃ hd tl, prev = hd :: tl ∧ hd.1 < last.1 ∧ hd.2 = last.2
  | PState.TARGET_GAP, last, prev => ∃ hd tl, prev = hd :: tl ∧ hd.1 = last.1 ∧ hd.2 < last.2

/-- An operation token the parse_cigar if-elif chain recognizes. -/
def isMID : CTok → Bool
  | CTok.op ch => decide (ch = 'M') || decide (ch = 'I') || decide (ch = 'D')
  | CTok.num _ => false

/-- A numeric token, the only shape int() accepts in length position. -/
def isNum : CTok → Bool
  | CTok.num _ => true
  | CTok.op _ => false

/-- Pure scan form of the cigarGo loop: the list of columns it appends, one
per token pair, without the reversed accumulator. -/
def cigarCols : List (CTok × CTok) → Nat × Nat → Option (List (Nat × Nat))
  | [], _ => some []
  | (lt, ot) :: ps, c =>
    match lt with
    | CTok.num n => (cigarCols ps (cigarStep c n ot)).map (fun out => cigarStep c n ot :: out)
    | CTok.op _ => none

/-- Grammar form of a CIGAR string: a list of (digit run, operation) pairs,
each digit run nonempty and each operation one of M, I, D. -/
def goodCigarForm (ps : List (List Char × Char)) : Bool :=
  ps.all (fun pr =>
    (!pr.1.isEmpty) && pr.1.all Char.isDigit &&
      (decide (pr.2 = 'M') || decide (pr.2 = 'I') || decide (pr.2 = 'D')))

/-- Render a grammar form back to the character list of the CIGAR string. -/
def renderCigarL : List (List Char × Char) → List Char
  | [] => []
  | (ds, c) :: ps => ds ++ (c :: renderCigarL ps)

/-- The token list a grammar form tokenizes to. -/
def cigTokensOf : List (List Char × Char) → List CTok
  | [] => []
  | (ds, c) :: ps => CTok.num (digitsVal ds) :: CTok.op c :: cigTokensOf ps

/-- Sum of the lengths of the M and I operations of a grammar form: the
total advance of the target coordinate. -/
def sumTargetLens : List (List Char × Char) → Nat
  | [] => 0
  | (ds, c) :: ps => (if c = 'M' ∨ c = 'I' then digitsVal ds else 0) + sumTargetLens ps

/-- Sum of the lengths of the M and D operations of a grammar form: the
total advance of the query coordinate. -/
def sumQueryLens : List (List Char × Char) → Nat
  | [] => 0
  | (ds, c) :: ps => (if c = 'M' ∨ c = 'D' then digitsVal ds else 0) + sumQueryLens ps

/-- The kind entry contributed by appending column x after the last column
of l, if l has one. -/
def lastKindCat (l : List (Nat × Nat)) (x : Nat × Nat) : List (Option RunKind) :=
  match l.getLast? with
  | none => []
  | some z => [colKind z x]

/-- The adjacency check contributed by appending entry x after the last
entry of l, if l has one. -/
def lastNeCat (l : List (Option RunKind)) (x : Option RunKind) : Bool :=
  match l.getLast? with
  | none => true
  | some z => decide (z ≠ x)

/-- The order check contributed by appending column x after the last column
of l, if l has one. -/
def lastLeCat (l : List (Nat × Nat)) (x : Nat × Nat) : Bool :=
  match l.getLast? with
  | none => true
  | some z => decide (z.1 ≤ x.1) && decide (z.2 ≤ x.2)

theorem kindsOf_append_last (l : List (Nat × Nat)) (x : Nat × Nat) :
    kindsOf (l ++ [x]) = kindsOf l ++ lastKindCat l x := by
  induction l with
  | nil => rfl
  | cons y l ih =>
    cases l with
    | nil => rfl
    | cons z r =>
      have h1 : (y :: z :: r) ++ [x] = y :: ((z :: r) ++ [x]) := rfl
      rw [h1]
      have h2 : (z :: r) ++ [x] = z :: (r ++ [x]) := rfl
      calc kindsOf (y :: ((z :: r) ++ [x]))
          = colKind y z :: kindsOf ((z :: r) ++ [x]) := by rw [h2]; rfl
        _ = colKind y z :: (kindsOf (z :: r) ++ lastKindCat (z :: r) x) := by rw [ih]
        _ = kindsOf (y :: z :: r) ++ lastKindCat (y :: z :: r) x := by
            simp [kindsOf, lastKindCat, List.getLast?_cons_cons]

theorem altOK_append_last (l : List (Option RunKind)) (x : Option RunKind) :
    altOK (l ++ [x]) = (altOK l && lastNeCat l x) := by
  induction l with
  | nil => simp [altOK, lastNeCat]
  | cons y l ih =>
    cases l with
    | nil => simp [altOK, lastNeCat]
    | cons z r =>
      have h1 : (y :: z :: r) ++ [x] = y :: ((z :: r) ++ [x]) := rfl
      rw [h1]
      have h2 : (z :: r) ++ [x] = z :: (r ++ [x]) := rfl
      calc altOK (y :: ((z :: r) ++ [x]))
          = (decide (y ≠ z) && altOK ((z :: r) ++ [x])) := by rw [h2]; rfl
        _ = (decide (y ≠ z) && (altOK (z :: r) && lastNeCat (z :: r) x)) := by rw [ih]
        _ = (altOK (y :: z :: r) && lastNeCat (y :: z :: r) x) := by
            simp [altOK, lastNeCat, List.getLast?_cons_cons, Bool.and_assoc]

theorem monoCols_append_last (l : List (Nat × Nat)) (x : Nat × Nat) :
    monoCols (l ++ [x]) = (monoCols l && lastLeCat l x) := by
  induction l with
  | nil => simp [monoCols, lastLeCat]
  | cons y l ih =>
    cases l with
    | nil => simp [monoCols, lastLeCat]
    | cons z r =>
      have h1 : (y :: z :: r) ++ [x] = y :: ((z :: r) ++ [x]) := rfl
      rw [h1]
      have h2 : (z :: r) ++ [x] = z :: (r ++ [x]) := rfl
      calc monoCols (y :: ((z :: r) ++ [x]))
          = ((decide (y.1 ≤ z.1) && decide (y.2 ≤ z.2)) && monoCols ((z :: r) ++ [x])) := by
            rw [h2]; rfl
        _ = ((decide (y.1 ≤ z.1) && decide (y.2 ≤ z.2)) &&
              (monoCols (z :: r) && lastLeCat (z :: r) x)) := by rw [ih]
        _ = (monoCols (y :: z :: r) && lastLeCat (y :: z :: r) x) := by
            simp [monoCols, lastLeCat, List.getLast?_cons_cons, Bool.and_assoc]

theorem kindsOf_reverse (l : List (Nat × Nat)) :
    kindsOf l.reverse = (kindsRev l).reverse := by
  induction l with
  | nil => rfl
  | cons a l ih =>
    rw [List.reverse_cons, kindsOf_append_last, ih]
    cases l with
    | nil => rfl
    | cons b r =>
      simp [lastKindCat, List.getLast?_reverse, kindsRev]

theorem altOK_reverse (l : List (Option RunKind)) : altOK l.reverse = altOK l := by
  induction l with
  | nil => rfl
  | cons a l ih =>
    rw [List.reverse_cons, altOK_append_last, ih]
    cases l with
    | nil => rfl
    | cons b r =>
      simp only [lastNeCat, List.getLast?_reverse, List.head?_cons, altOK]
      rw [decide_eq_decide.mpr (ne_comm (a := b) (b := a)), Bool.and_comm]

theorem allSome_reverse (l : List (Option RunKind)) : allSome l.reverse = allSome l := by
  simp [allSome, List.all_reverse]

theorem monoCols_reverse (l : List (Nat × Nat)) : monoCols l.reverse = revMono l := by
  induction l with
  | nil => rfl
  | cons a l ih =>
    rw [List.reverse_cons, monoCols_append_last, ih]
    cases l with
    | nil => rfl
    | cons b r =>
      simp only [lastLeCat, List.getLast?_reverse, List.head?_cons, revMono]
      rw [Bool.and_comm]

theorem colKind_match (a b : Nat × Nat) (h1 : a.1 < b.1) (h2 : a.2 < b.2) :
    colKind a b = some RunKind.matchRun := by
  simp [colKind, Nat.sub_pos_of_lt h1, Nat.sub_pos_of_lt h2]

theorem colKind_qgap (a b : Nat × Nat) (h1 : a.1 < b.1) (h2 : a.2 = b.2) :
    colKind a b = some RunKind.queryGapRun := by
  simp [colKind, Nat.sub_pos_of_lt h1, h2, Nat.sub_self]

theorem colKind_tgap (a b : Nat × Nat) (h1 : a.1 = b.1) (h2 : a.2 < b.2) :
    colKind a b = some RunKind.targetGapRun := by
  simp [colKind, Nat.sub_pos_of_lt h2, h1, Nat.sub_self]

theorem revMono_extend (last nl : Nat × Nat) {prev : List (Nat × Nat)}
    (h1 : last.1 ≤ nl.1) (h2 : last.2 ≤ nl.2)
    (hm : revMono (last :: prev) = true) : revMono (nl :: prev) = true := by
  cases prev with
  | nil => rfl
  | cons hd tl =>
    simp only [revMono, Bool.and_eq_true, decide_eq_true_eq] at hm ⊢
    exact ⟨⟨le_trans hm.1.1 h1, le_trans hm.1.2 h2⟩, hm.2⟩

theorem revMono_push (last nl : Nat × Nat) {prev : List (Nat × Nat)}
    (h1 : last.1 ≤ nl.1) (h2 : last.2 ≤ nl.2)
    (hm : revMono (last :: prev) = true) : revMono (nl :: last :: prev) = true := by
  simp only [revMono, Bool.and_eq_true, decide_eq_true_eq] at hm ⊢
  exact ⟨⟨h1, h2⟩, hm⟩

theorem getLast?_cons_ne {α : Type} {x : α} {l : List α} (h : l ≠ []) :
    (x :: l).getLast? = l.getLast? := by
  cases l with
  | nil => exact absurd rfl h
  | cons b r => exact List.getLast?_cons_cons

/-- Invariant of the btopGo loop with no hypothesis on the tokens: the loop
never returns an empty column list, never touches the oldest column, and
keeps the carried columns ordered. -/
theorem btopGo_mono :
    ∀ (ts : List BTok) (last : Nat × Nat) (prev : List (Nat × Nat)) (st : PState),
      (st ≠ PState.NONE → prev ≠ []) →
      revMono (last :: prev) = true →
      btopGo ts last prev st ≠ [] ∧
      (btopGo ts last prev st).head? = (last :: prev).getLast? ∧
      monoCols (btopGo ts last prev st) = true := by
  intro ts
  induction ts with
  | nil =>
    intro last prev st _ hm
    refine ⟨by simp [btopGo], ?_, ?_⟩
    · show ((last :: prev).reverse).head? = _
      exact List.head?_reverse _
    · show monoCols ((last :: prev).reverse) = true
      rw [monoCols_reverse]; exact hm
  | cons tok ts ih =>
    intro last prev st hp hm
    cases tok with
    | pair c1 c2 =>
      by_cases hc1 : c1 = '-'
      · by_cases hst : st = PState.QUERY_GAP
        · have hprev : prev ≠ [] := hp (by rw [hst]; decide)
          have h3 := ih (last.1 + 1, last.2) prev PState.QUERY_GAP (fun _ => hprev)
            (revMono_extend last (last.1 + 1, last.2) (Nat.le_succ _) (le_refl _) hm)
          rw [btopGo, if_pos hc1, if_pos hst]
          refine ⟨h3.1, ?_, h3.2.2⟩
          rw [h3.2.1, getLast?_cons_ne hprev, getLast?_cons_ne hprev]
        · have h3 := ih (last.1 + 1, last.2) (last :: prev) PState.QUERY_GAP
            (fun _ => List.cons_ne_nil _ _)
            (revMono_push last (last.1 + 1, last.2) (Nat.le_succ _) (le_refl _) hm)
          rw [btopGo, if_pos hc1, if_neg hst]
          refine ⟨h3.1, ?_, h3.2.2⟩
          rw [h3.2.1, getLast?_cons_ne (List.cons_ne_nil _ _)]
      · by_cases hc2 : c2 = '-'
        · by_cases hst : st = PState.TARGET_GAP
          · have hprev : prev ≠ [] := hp (by rw [hst]; decide)
            have h3 := ih (last.1, last.2 + 1) prev PState.TARGET_GAP (fun _ => hprev)
              (revMono_extend last (last.1, last.2 + 1) (le_refl _) (Nat.le_succ _) hm)
            rw [btopGo, if_neg hc1, if_pos hc2, if_pos hst]
            refine ⟨h3.1, ?_, h3.2.2⟩
            rw [h3.2.1, getLast?_cons_ne hprev, getLast?_cons_ne hprev]
          · have h3 := ih (last.1, last.2 + 1) (last :: prev) PState.TARGET_GAP
              (fun _ => List.cons_ne_nil _ _)
              (revMono_push last (last.1, last.2 + 1) (le_refl _) (Nat.le_succ _) hm)
            rw [btopGo, if_neg hc1, if_pos hc2, if_neg hst]
            refine ⟨h3.1, ?_, h3.2.2⟩
            rw [h3.2.1, getLast?_cons_ne (List.cons_ne_nil _ _)]
        · by_cases hst : st = PState.MATCH
          · have hprev : prev ≠ [] := hp (by rw [hst]; decide)
            have h3 := ih (last.1 + 1, last.2 + 1) prev PState.MATCH (fun _ => hprev)
              (revMono_extend last (last.1 + 1, last.2 + 1) (Nat.le_succ _) (Nat.le_succ _) hm)
            rw [btopGo, if_neg hc1, if_neg hc2, if_pos hst]
            refine ⟨h3.1, ?_, h3.2.2⟩
            rw [h3.2.1, getLast?_cons_ne hprev, getLast?_cons_ne hprev]
          · have h3 := ih (last.1 + 1, last.2 + 1) (last :: prev) PState.MATCH
              (fun _ => List.cons_ne_nil _ _)
              (revMono_push last (last.1 + 1, last.2 + 1) (Nat.le_succ _) (Nat.le_succ _) hm)
            rw [btopGo, if_neg hc1, if_neg hc2, if_neg hst]
            refine ⟨h3.1, ?_, h3.2.2⟩
            rw [h3.2.1, getLast?_cons_ne (List.cons_ne_nil _ _)]
    | num n =>
      by_cases hst : st = PState.MATCH
      · have hprev : prev ≠ [] := hp (by rw [hst]; decide)
        have h3 := ih (last.1 + n, last.2 + n) prev PState.MATCH (fun _ => hprev)
          (revMono_extend last (last.1 + n, last.2 + n) (Nat.le_add_right _ _) (Nat.le_add_right _ _) hm)
        rw [btopGo, if_pos hst]
        refine ⟨h3.1, ?_, h3.2.2⟩
        rw [h3.2.1, getLast?_cons_ne hprev, getLast?_cons_ne hprev]
      · have h3 := ih (last.1 + n, last.2 + n) (last :: prev) PState.MATCH
          (fun _ => List.cons_ne_nil _ _)
          (revMono_push last (last.1 + n, last.2 + n) (Nat.le_add_right _ _) (Nat.le_add_right _ _) hm)
        rw [btopGo, if_neg hst]
        refine ⟨h3.1, ?_, h3.2.2⟩
        rw [h3.2.1, getLast?_cons_ne (List.cons_ne_nil _ _)]

theorem kinds_extend (last nl : Nat × Nat) {hd : Nat × Nat} {tl : List (Nat × Nat)}
    (hk : colKind hd nl = colKind hd last) :
    kindsRev (nl :: hd :: tl) = kindsRev (last :: hd :: tl) := by
  show colKind hd nl :: kindsRev (hd :: tl) = colKind hd last :: kindsRev (hd :: tl)
  rw [hk]

theorem kinds_push (last nl : Nat × Nat) {prev : List (Nat × Nat)} {k : RunKind}
    (hk : colKind last nl = some k)
    (hhd : ∀ hd tl, prev = hd :: tl → colKind hd last ≠ some k)
    (hs : allSome (kindsRev (last :: prev)) = true)
    (ha : altOK (kindsRev (last :: prev)) = true) :
    allSome (kindsRev (nl :: last :: prev)) = true ∧
    altOK (kindsRev (nl :: last :: prev)) = true := by
  have hkr : kindsRev (nl :: last :: prev) = colKind last nl :: kindsRev (last :: prev) := rfl
  constructor
  · rw [hkr]
    simp only [allSome, List.all_cons, Bool.and_eq_true] at hs ⊢
    refine ⟨by rw [hk]; rfl, hs⟩
  · rw [hkr]
    cases prev with
    | nil => rfl
    | cons hd tl =>
      have h0 : kindsRev (last :: hd :: tl) = colKind hd last :: kindsRev (hd :: tl) := rfl
      rw [h0] at ha ⊢
      show (decide (colKind last nl ≠ colKind hd last) &&
        altOK (colKind hd last :: kindsRev (hd :: tl))) = true
      rw [ha, Bool.and_true, decide_eq_true_eq]
      intro heq
      exact hhd hd tl rfl (heq ▸ hk)

/-- The match-kind arm of the btopGo loop (a numeric token or a mismatch
pair) preserves the run-kind invariants, given the induction hypothesis for
the remaining tokens. -/
theorem btopGo_kinds_matchArm (ts : List BTok)
    (ih2 : ∀ (last : Nat × Nat) (prev : List (Nat × Nat)) (st : PState),
      goLink st last prev →
      allSome (kindsRev (last :: prev)) = true →
      altOK (kindsRev (last :: prev)) = true →
      allSome (kindsOf (btopGo ts last prev st)) = true ∧
      altOK (kindsOf (btopGo ts last prev st)) = true)
    (last : Nat × Nat) (prev : List (Nat × Nat)) (st : PState)
    (hlink : goLink st last prev)
    (hs : allSome (kindsRev (last :: prev)) = true)
    (ha : altOK (kindsRev (last :: prev)) = true)
    (n : Nat) (hn : 0 < n) :
    allSome (kindsOf (if st = PState.MATCH then
        btopGo ts (last.1 + n, last.2 + n) prev PState.MATCH
      else btopGo ts (last.1 + n, last.2 + n) (last :: prev) PState.MATCH)) = true ∧
    altOK (kindsOf (if st = PState.MATCH then
        btopGo ts (last.1 + n, last.2 + n) prev PState.MATCH
      else btopGo ts (last.1 + n, last.2 + n) (last :: prev) PState.MATCH)) = true := by
  have hlt1 : last.1 < last.1 + n := Nat.lt_add_of_pos_right hn
  have hlt2 : last.2 < last.2 + n := Nat.lt_add_of_pos_right hn
  cases st with
  | MATCH =>
    rw [if_pos rfl]
    obtain ⟨hd, tl, rfl, h1, h2⟩ := hlink
    have hk : colKind hd (last.1 + n, last.2 + n) = colKind hd last := by
      rw [colKind_match hd (last.1 + n, last.2 + n) (lt_of_lt_of_le h1 (Nat.le_add_right _ _))
        (lt_of_lt_of_le h2 (Nat.le_add_right _ _)), colKind_match hd last h1 h2]
    refine ih2 (last.1 + n, last.2 + n) (hd :: tl) PState.MATCH
      ⟨hd, tl, rfl, lt_of_lt_of_le h1 (Nat.le_add_right _ _),
        lt_of_lt_of_le h2 (Nat.le_add_right _ _)⟩ ?_ ?_
    · rw [kinds_extend last (last.1 + n, last.2 + n) hk]; exact hs
    · rw [kinds_extend last (last.1 + n, last.2 + n) hk]; exact ha
  | NONE =>
    rw [if_neg (by decide)]
    have hprev : prev = [] := hlink
    subst hprev
    have h := kinds_push last (last.1 + n, last.2 + n)
      (colKind_match last (last.1 + n, last.2 + n) hlt1 hlt2) (fun hd tl h => by cases h) hs ha
    exact ih2 (last.1 + n, last.2 + n) (last :: []) PState.MATCH
      ⟨last, [], rfl, hlt1, hlt2⟩ h.1 h.2
  | QUERY_GAP =>
    rw [if_neg (by decide)]
    obtain ⟨hd, tl, rfl, h1, h2⟩ := hlink
    have h := kinds_push last (last.1 + n, last.2 + n) (colKind_match last (last.1 + n, last.2 + n) hlt1 hlt2)
      (fun hd2 tl2 heq => by
        injection heq with e1 e2
        subst e1
        rw [colKind_qgap hd last h1 h2]
        decide) hs ha
    exact ih2 (last.1 + n, last.2 + n) (last :: hd :: tl) PState.MATCH
      ⟨last, hd :: tl, rfl, hlt1, hlt2⟩ h.1 h.2
  | TARGET_GAP =>
    rw [if_neg (by decide)]
    obtain ⟨hd, tl, rfl, h1, h2⟩ := hlink
    have h := kinds_push last (last.1 + n, last.2 + n) (colKind_match last (last.1 + n, last.2 + n) hlt1 hlt2)
      (fun hd2 tl2 heq => by
        injection heq with e1 e2
        subst e1
        rw [colKind_tgap hd last h1 h2]
        decide) hs ha
    exact ih2 (last.1 + n, last.2 + n) (last :: hd :: tl) PState.MATCH
      ⟨last, hd :: tl, rfl, hlt1, hlt2⟩ h.1 h.2

theorem cigarStep_M (t q n : Nat) : cigarStep (t, q) n (CTok.op 'M') = (t + n, q + n) := rfl

theorem cigarStep_I (t q n : Nat) : cigarStep (t, q) n (CTok.op 'I') = (t + n, q) := rfl

theorem cigarStep_D (t q n : Nat) : cigarStep (t, q) n (CTok.op 'D') = (t, q + n) := rfl

theorem cigarStep_le (c : Nat × Nat) (n : Nat) (ot : CTok) :
    c.1 ≤ (cigarStep c n ot).1 ∧ c.2 ≤ (cigarStep c n ot).2 := by
  cases ot with
  | num m => exact ⟨le_refl _, le_refl _⟩
  | op ch =>
    simp only [cigarStep]
    split
    · exact ⟨Nat.le_add_right _ _, Nat.le_add_right _ _⟩
    · split
      · exact ⟨Nat.le_add_right _ _, le_refl _⟩
      · split
        · exact ⟨le_refl _, Nat.le_add_right _ _⟩
        · exact ⟨le_refl _, le_refl _⟩

theorem cigarStep_noMID (c : Nat × Nat) (n : Nat) (ot : CTok) (h : isMID ot = false) :
    cigarStep c n ot = c := by
  cases ot with
  | num m => rfl
  | op ch =>
    simp only [isMID, Bool.or_eq_false_iff, decide_eq_false_iff_not] at h
    simp [cigarStep, h.1.1, h.1.2, h.2]

theorem cigarGo_eq (ps : List (CTok × CTok)) :
    ∀ (t q : Nat) (cols : List (Nat × Nat)),
      cigarGo ps t q cols = (cigarCols ps (t, q)).map (fun out => cols.reverse ++ out) := by
  induction ps with
  | nil => intro t q cols; simp [cigarGo, cigarCols]
  | cons p ps ih =>
    obtain ⟨lt, ot⟩ := p
    intro t q cols
    cases lt with
    | num n =>
      simp only [cigarGo, cigarCols, ih, Option.map_map]
      have he : ((cigarStep (t, q) n ot).1, (cigarStep (t, q) n ot).2) =
          cigarStep (t, q) n ot := rfl
      rw [he]
      have hf : (fun out => (cigarStep (t, q) n ot :: cols).reverse ++ out) =
          ((fun out => cols.reverse ++ out) ∘ fun out => cigarStep (t, q) n ot :: out) := by
        funext out
        simp [Function.comp, List.reverse_cons, List.append_assoc]
      rw [hf]
    | op ch => simp [cigarGo, cigarCols]

theorem cigarCols_some (ps : List (CTok × CTok)) :
    ∀ c, ps.all (fun p => isNum p.1) = true →
      ∃ out, cigarCols ps c = some out ∧ out.length = ps.length := by
  induction ps with
  | nil => intro c _; exact ⟨[], rfl, rfl⟩
  | cons p ps ih =>
    obtain ⟨lt, ot⟩ := p
    intro c hall
    rw [List.all_cons, Bool.and_eq_true] at hall
    cases lt with
    | op ch => exact absurd hall.1 (by simp [isNum])
    | num n =>
      obtain ⟨out, hout, hlen⟩ := ih (cigarStep c n ot) hall.2
      exact ⟨cigarStep c n ot :: out, by simp [cigarCols, hout], by simp [hlen]⟩

theorem cigarCols_index (ps : List (CTok × CTok)) :
    ∀ c out, cigarCols ps c = some out →
      ∀ i (hi : i < ps.length), isMID (ps.get ⟨i, hi⟩).2 = false →
        (c :: out)[i + 1]? = (c :: out)[i]? := by
  induction ps with
  | nil => intro c out _ i hi; exact absurd hi (by simp)
  | cons p ps ih =>
    obtain ⟨lt, ot⟩ := p
    intro c out hcols i hi hmid
    cases lt with
    | op ch => exact absurd hcols (by simp [cigarCols])
    | num n =>
      simp only [cigarCols, Option.map_eq_some'] at hcols
      obtain ⟨out2, hout2, rfl⟩ := hcols
      cases i with
      | zero =>
        have hstep : cigarStep c n ot = c := cigarStep_noMID c n ot hmid
        simp [hstep]
      | succ j =>
        have hj : j < ps.length := Nat.lt_of_succ_lt_succ hi
        have := ih (cigarStep c n ot) out2 hout2 j hj hmid
        simpa using this

theorem cigarCols_mono (ps : List (CTok × CTok)) :
    ∀ c out, cigarCols ps c = some out → monoCols (c :: out) = true := by
  induction ps with
  | nil =>
    intro c out h
    have : out = [] := by simpa [cigarCols] using h.symm
    subst this; rfl
  | cons p ps ih =>
    obtain ⟨lt, ot⟩ := p
    intro c out hcols
    cases lt with
    | op ch => exact absurd hcols (by simp [cigarCols])
    | num n =>
      simp only [cigarCols, Option.map_eq_some'] at hcols
      obtain ⟨out2, hout2, rfl⟩ := hcols
      have hm := ih (cigarStep c n ot) out2 hout2
      have hle := cigarStep_le c n ot
      simp only [monoCols, Bool.and_eq_true, decide_eq_true_eq]
      exact ⟨⟨hle.1, hle.2⟩, hm⟩

theorem tokenizeCigarAux_digits (ds : List Char) :
    ∀ (rest : List Char) (acc : Option Nat), ds ≠ [] → ds.all Char.isDigit = true →
      tokenizeCigarAux (ds ++ rest) acc =
        tokenizeCigarAux rest
          (some (ds.foldl (fun a c => 10 * a + digitVal c) (acc.getD 0))) := by
  induction ds with
  | nil => intro rest acc hne _; exact absurd rfl hne
  | cons d ds ih =>
    intro rest acc _ hall
    rw [List.all_cons, Bool.and_eq_true] at hall
    cases ds with
    | nil =>
      show tokenizeCigarAux (d :: rest) acc = _
      rw [tokenizeCigarAux, if_pos hall.1]
      rfl
    | cons d2 ds2 =>
      show tokenizeCigarAux (d :: ((d2 :: ds2) ++ rest)) acc = _
      rw [tokenizeCigarAux, if_pos hall.1,
        ih rest (some (10 * acc.getD 0 + digitVal d)) (by simp) hall.2]
      rfl

theorem tokenizeCigarAux_op (ch : Char) (rest : List Char) (v : Nat)
    (h : ch = 'M' ∨ ch = 'D' ∨ ch = 'I') :
    tokenizeCigarAux (ch :: rest) (some v) =
      CTok.num v :: CTok.op ch :: tokenizeCigarAux rest none := by
  have hd : ch.isDigit = false := by
    rcases h with h | h | h <;> subst h <;> decide
  rw [tokenizeCigarAux, if_neg (by simp [hd]), if_pos h]
  rfl

theorem tok_render (ps : List (List Char × Char)) (h : goodCigarForm ps = true) :
    tokenizeCigarAux (renderCigarL ps) none = cigTokensOf ps := by
  induction ps with
  | nil => rfl
  | cons p ps ih =>
    obtain ⟨ds, ch⟩ := p
    simp only [goodCigarForm, List.all_cons, Bool.and_eq_true, Bool.or_eq_true,
      decide_eq_true_eq, Bool.not_eq_true', List.isEmpty_eq_false] at h
    obtain ⟨⟨⟨hne, hdig⟩, hmid⟩, htail⟩ := h
    have hMID : ch = 'M' ∨ ch = 'D' ∨ ch = 'I' := by
      rcases hmid with (h | h) | h
      · exact Or.inl h
      · exact Or.inr (Or.inr h)
      · exact Or.inr (Or.inl h)
    show tokenizeCigarAux (ds ++ (ch :: renderCigarL ps)) none = _
    rw [tokenizeCigarAux_digits ds (ch :: renderCigarL ps) none hne hdig,
      tokenizeCigarAux_op ch (renderCigarL ps) _ hMID, ih htail]
    rfl

theorem pairUp_cigTokens (ps : List (List Char × Char)) :
    pairUp (cigTokensOf ps) =
      ps.map (fun pr => (CTok.num (digitsVal pr.1), CTok.op pr.2)) := by
  induction ps with
  | nil => rfl
  | cons p ps ih =>
    obtain ⟨ds, ch⟩ := p
    simp [cigTokensOf, pairUp, ih]

theorem c5_go (ps : List (List Char × Char)) :
    ∀ (t q : Nat) (acc : List (Nat × Nat)),
      ps.all (fun pr => decide (pr.2 = 'M') || decide (pr.2 = 'I') || decide (pr.2 = 'D')) =
        true →
      (cigarGo (ps.map (fun pr => (CTok.num (digitsVal pr.1), CTok.op pr.2))) t q
          ((t, q) :: acc)).bind List.getLast? =
        some (t + sumTargetLens ps, q + sumQueryLens ps) := by
  induction ps with
  | nil =>
    intro t q acc _
    show (some ((t, q) :: acc).reverse).bind List.getLast? = _
    simp [List.getLast?_reverse, sumTargetLens, sumQueryLens]
  | cons p ps ih =>
    obtain ⟨ds, ch⟩ := p
    intro t q acc hmid
    rw [List.all_cons, Bool.and_eq_true] at hmid
    obtain ⟨hch, hps⟩ := hmid
    simp only [Bool.or_eq_true, decide_eq_true_eq] at hch
    rcases hch with (rfl | rfl) | rfl
    · simp only [List.map_cons, cigarGo, cigarStep_M]
      rw [ih (t + digitsVal ds) (q + digitsVal ds) ((t, q) :: acc) hps]
      simp [sumTargetLens, sumQueryLens, Nat.add_assoc]
    · simp only [List.map_cons, cigarGo, cigarStep_I]
      rw [ih (t + digitsVal ds) q ((t, q) :: acc) hps]
      simp [sumTargetLens, sumQueryLens, Nat.add_assoc]
    · simp only [List.map_cons, cigarGo, cigarStep_D]
      rw [ih t (q + digitsVal ds) ((t, q) :: acc) hps]
      simp [sumTargetLens, sumQueryLens, Nat.add_assoc]

/-- Invariant of the btopGo loop under positive numeric tokens: the produced
column list has no redundant column and no two consecutive columns of the
same run kind. -/
theorem btopGo_kinds :
    ∀ (ts : List BTok), ts.all posTok = true →
    ∀ (last : Nat × Nat) (prev : List (Nat × Nat)) (st : PState),
      goLink st last prev →
      allSome (kindsRev (last :: prev)) = true →
      altOK (kindsRev (last :: prev)) = true →
      allSome (kindsOf (btopGo ts last prev st)) = true ∧
      altOK (kindsOf (btopGo ts last prev st)) = true := by
  intro ts
  induction ts with
  | nil =>
    intro _ last prev st _ hs ha
    constructor
    · show allSome (kindsOf ((last :: prev).reverse)) = true
      rw [kindsOf_reverse, allSome_reverse]; exact hs
    · show altOK (kindsOf ((last :: prev).reverse)) = true
      rw [kindsOf_reverse, altOK_reverse]; exact ha
  | cons tok ts ih =>
    intro hpos last prev st hlink hs ha
    rw [List.all_cons, Bool.and_eq_true] at hpos
    obtain ⟨hpos1, hpos2⟩ := hpos
    have ih2 := ih hpos2
    cases tok with
    | pair c1 c2 =>
      by_cases hc1 : c1 = '-'
      · rw [btopGo, if_pos hc1]
        cases st with
        | QUERY_GAP =>
          rw [if_pos rfl]
          obtain ⟨hd, tl, rfl, h1, h2⟩ := hlink
          have hk : colKind hd (last.1 + 1, last.2) = colKind hd last := by
            rw [colKind_qgap hd (last.1 + 1, last.2) (Nat.lt_succ_of_lt h1) h2, colKind_qgap hd last h1 h2]
          refine ih2 (last.1 + 1, last.2) (hd :: tl) PState.QUERY_GAP
            ⟨hd, tl, rfl, Nat.lt_succ_of_lt h1, h2⟩ ?_ ?_
          · rw [kinds_extend last (last.1 + 1, last.2) hk]; exact hs
          · rw [kinds_extend last (last.1 + 1, last.2) hk]; exact ha
        | NONE =>
          rw [if_neg (by decide)]
          have hprev : prev = [] := hlink
          subst hprev
          have h := kinds_push last (last.1 + 1, last.2)
            (colKind_qgap last (last.1 + 1, last.2) (Nat.lt_succ_self _) rfl) (fun hd tl h => by cases h) hs ha
          exact ih2 (last.1 + 1, last.2) (last :: []) PState.QUERY_GAP
            ⟨last, [], rfl, Nat.lt_succ_self _, rfl⟩ h.1 h.2
        | MATCH =>
          rw [if_neg (by decide)]
          obtain ⟨hd, tl, rfl, h1, h2⟩ := hlink
          have h := kinds_push last (last.1 + 1, last.2)
            (colKind_qgap last (last.1 + 1, last.2) (Nat.lt_succ_self _) rfl)
            (fun hd2 tl2 heq => by
              injection heq with e1 e2
              subst e1
              rw [colKind_match hd last h1 h2]
              decide) hs ha
          exact ih2 (last.1 + 1, last.2) (last :: hd :: tl) PState.QUERY_GAP
            ⟨last, hd :: tl, rfl, Nat.lt_succ_self _, rfl⟩ h.1 h.2
        | TARGET_GAP =>
          rw [if_neg (by decide)]
          obtain ⟨hd, tl, rfl, h1, h2⟩ := hlink
          have h := kinds_push last (last.1 + 1, last.2)
            (colKind_qgap last (last.1 + 1, last.2) (Nat.lt_succ_self _) rfl)
            (fun hd2 tl2 heq => by
              injection heq with e1 e2
              subst e1
              rw [colKind_tgap hd last h1 h2]
              decide) hs ha
          exact ih2 (last.1 + 1, last.2) (last :: hd :: tl) PState.QUERY_GAP
            ⟨last, hd :: tl, rfl, Nat.lt_succ_self _, rfl⟩ h.1 h.2
      · by_cases hc2 : c2 = '-'
        · rw [btopGo, if_neg hc1, if_pos hc2]
          cases st with
          | TARGET_GAP =>
            rw [if_pos rfl]
            obtain ⟨hd, tl, rfl, h1, h2⟩ := hlink
            have hk : colKind hd (last.1, last.2 + 1) = colKind hd last := by
              rw [colKind_tgap hd (last.1, last.2 + 1) h1 (Nat.lt_succ_of_lt h2), colKind_tgap hd last h1 h2]
            refine ih2 (last.1, last.2 + 1) (hd :: tl) PState.TARGET_GAP
              ⟨hd, tl, rfl, h1, Nat.lt_succ_of_lt h2⟩ ?_ ?_
            · rw [kinds_extend last (last.1, last.2 + 1) hk]; exact hs
            · rw [kinds_extend last (last.1, last.2 + 1) hk]; exact ha
          | NONE =>
            rw [if_neg (by decide)]
            have hprev : prev = [] := hlink
            subst hprev
            have h := kinds_push last (last.1, last.2 + 1)
              (colKind_tgap last (last.1, last.2 + 1) rfl (Nat.lt_succ_self _)) (fun hd tl h => by cases h) hs ha
            exact ih2 (last.1, last.2 + 1) (last :: []) PState.TARGET_GAP
              ⟨last, [], rfl, rfl, Nat.lt_succ_self _⟩ h.1 h.2
          | MATCH =>
            rw [if_neg (by decide)]
            obtain ⟨hd, tl, rfl, h1, h2⟩ := hlink
            have h := kinds_push last (last.1, last.2 + 1)
              (colKind_tgap last (last.1, last.2 + 1) rfl (Nat.lt_succ_self _))
              (fun hd2 tl2 heq => by
                injection heq with e1 e2
                subst e1
                rw [colKind_match hd last h1 h2]
                decide) hs ha
            exact ih2 (last.1, last.2 + 1) (last :: hd :: tl) PState.TARGET_GAP
              ⟨last, hd :: tl, rfl, rfl, Nat.lt_succ_self _⟩ h.1 h.2
          | QUERY_GAP =>
            rw [if_neg (by decide)]
            obtain ⟨hd, tl, rfl, h1, h2⟩ := hlink
            have h := kinds_push last (last.1, last.2 + 1)
              (colKind_tgap last (last.1, last.2 + 1) rfl (Nat.lt_succ_self _))
              (fun hd2 tl2 heq => by
                injection heq with e1 e2
                subst e1
                rw [colKind_qgap hd last h1 h2]
                decide) hs ha
            exact ih2 (last.1, last.2 + 1) (last :: hd :: tl) PState.TARGET_GAP
              ⟨last, hd :: tl, rfl, rfl, Nat.lt_succ_self _⟩ h.1 h.2
        · rw [btopGo, if_neg hc1, if_neg hc2]
          exact btopGo_kinds_matchArm ts ih2 last prev st hlink hs ha 1 Nat.one_pos
    | num n =>
      have hn : 0 < n := by
        have := hpos1
        simp only [posTok, decide_eq_true_eq] at this
        exact this
      rw [btopGo]
      exact btopGo_kinds_matchArm ts ih2 last prev st hlink hs ha n hn

/-- Claim C1, counterexample: decoding the BTOP string 5AA3 does not yield
the coordinate matrix [[0,5,6,9],[0,5,6,9]] stated by the claim. -/
theorem c1_counterexample :
    ¬((parse_btop "5AA3").map Prod.fst = [0, 5, 6, 9] ∧
      (parse_btop "5AA3").map Prod.snd = [0, 5, 6, 9]) := by decide

/-- Claim C1, amended: decoding the BTOP string 5AA3 with parse_btop yields
the coordinate matrix [[0,9],[0,9]]: the length-1 mismatch pair also sets the
state to MATCH, so it merges with both adjacent match runs into one column
instead of occupying a separate column. -/
theorem c1_theorem :
    (parse_btop "5AA3").map Prod.fst = [0, 9] ∧
    (parse_btop "5AA3").map Prod.snd = [0, 9] := by decide

/-- Claim C2, counterexample: parse_cigar does not merge consecutive runs of
the same kind; the CIGAR string 2M3M decodes to three columns, not to the
matrix of 5M. -/
theorem c2_counterexample :
    parse_cigar "2M3M" = some [(0, 0), (2, 2), (5, 5)] ∧
    parse_cigar "5M" = some [(0, 0), (5, 5)] ∧
    parse_cigar "2M3M" ≠ parse_cigar "5M" := by decide

/-- Claim C2, amended: the run-length merging invariant holds for parse_btop
(for inputs whose numeric tokens are positive; a zero run length such as the
token 0 inserts a redundant column): in the decoded matrix no column repeats
its predecessor and no two consecutive column pairs encode the same run
kind.  parse_cigar instead emits one column per token pair and does not
merge, as the counterexample shows. -/
theorem c2_theorem (s : String)
    (hpos : (tokenizeBtop s.data).all posTok = true) :
    mergedOK (parse_btop s) = true := by
  have h := btopGo_kinds (tokenizeBtop s.data) hpos (0, 0) [] PState.NONE rfl rfl rfl
  show (allSome (kindsOf (btopGo (tokenizeBtop s.data) (0, 0) [] PState.NONE)) &&
    altOK (kindsOf (btopGo (tokenizeBtop s.data) (0, 0) [] PState.NONE))) = true
  rw [h.1, h.2]
  rfl

/-- Claim C2, witness at the BTOP string 3-A2. -/
theorem c2_witness : mergedOK (parse_btop "3-A2") = true :=
  c2_theorem "3-A2" (by decide)

/-- Claim C3, counterexample: for a row whose program is neither TBLASTN nor
TBLASTX (the FASTA vocabulary with the aln_code field), both rebasing
transforms are applied to the same row, so the result matches neither the
query transform alone nor the target transform alone. -/
theorem c3_counterexample :
    rebaseCoordinates "FASTA" (some 10) (some 20) (some 3) (some ([0, 2], [0, 2])) =
      Res.ok (some ([3, 5], [10, 12])) ∧
    rebaseCoordinates "FASTA" (some 10) (some 20) (some 3) (some ([0, 2], [0, 2])) ≠
      Res.ok (some (([0, 2] : List Int), queryRebaseSpec 10 20 [0, 2])) ∧
    rebaseCoordinates "FASTA" (some 10) (some 20) (some 3) (some ([0, 2], [0, 2])) ≠
      Res.ok (some (targetRebaseSpec 3 [0, 2], ([0, 2] : List Int))) := by decide

/-- Claim C3, amended: the query-row rebasing applies to every row that
carries coordinates; the target-row rebasing applies additionally, exactly
when the program is neither TBLASTN nor TBLASTX.  TBLASTN and TBLASTX rows
therefore receive only the query transform, while other rows receive both;
the selection is by the program name, never both transforms are skipped. -/
theorem c3_theorem (program : String) (qs qe t : Int) (trow qrow : List Int) :
    rebaseCoordinates program (some qs) (some qe) (some t) (some (trow, qrow)) =
      Res.ok (some
        (if program = "TBLASTN" ∨ program = "TBLASTX" then trow
          else targetRebaseSpec t trow,
         queryRebaseSpec qs qe qrow)) := by
  by_cases hp : program = "TBLASTN" ∨ program = "TBLASTX" <;>
    simp [rebaseCoordinates, queryRebaseSpec, targetRebaseSpec, hp]

/-- Claim C4, counterexample: the character X is dropped by tokenization, so
4X3M pairs the token 4 with the token 3 and drops the trailing M; the result
is [[0,0],[0,0]], not one column per written pair with the M pair advancing. -/
theorem c4_counterexample :
    parse_cigar "4X3M" = some [(0, 0), (0, 0)] ∧
    parse_cigar "4X3M" ≠ some [(0, 0), (0, 0), (3, 3)] := by decide

/-- Claim C4, amended: over the zipped token pairs (not the pairs as written,
since unrecognized characters are dropped at tokenization), whenever every
length-position token is numeric, parse_cigar emits exactly one column per
token pair, and a pair whose operation token is not M, I or D leaves the
coordinates unchanged, its column equal to the preceding one. -/
theorem c4_theorem (s : String)
    (h : (pairUp (tokenizeCigar s.data)).all (fun p => isNum p.1) = true) :
    (parse_cigar s).map List.length =
      some ((pairUp (tokenizeCigar s.data)).length + 1) ∧
    ∀ i (hi : i < (pairUp (tokenizeCigar s.data)).length),
      isMID ((pairUp (tokenizeCigar s.data)).get ⟨i, hi⟩).2 = false →
      (parse_cigar s).bind (fun cols => cols[i + 1]?) =
        (parse_cigar s).bind (fun cols => cols[i]?) := by
  obtain ⟨out, hout, hlen⟩ := cigarCols_some (pairUp (tokenizeCigar s.data)) (0, 0) h
  have hpc : parse_cigar s = some ((0, 0) :: out) := by
    rw [parse_cigar, cigarGo_eq, hout]
    rfl
  constructor
  · rw [hpc]
    simp [hlen]
  · intro i hi hmid
    rw [hpc]
    show ((0, 0) :: out)[i + 1]? = ((0, 0) :: out)[i]?
    exact cigarCols_index (pairUp (tokenizeCigar s.data)) (0, 0) out hout i hi hmid

/-- Claim C4, witness at the CIGAR string 4X3M. -/
theorem c4_witness :
    (parse_cigar "4X3M").map List.length = some 2 ∧
    (parse_cigar "4X3M").bind (fun cols => cols[1]?) =
      (parse_cigar "4X3M").bind (fun cols => cols[0]?) := by
  have h := c4_theorem "4X3M" (by decide)
  refine ⟨?_, h.2 0 (by decide) (by decide)⟩
  rw [h.1]
  decide

/-- Claim C5: for every CIGAR string of the grammar (a concatenation of
decimal-length and operation pairs with operations among M, I, D), the final
column of the parse_cigar matrix is the pair of the summed M and I lengths
and the summed M and D lengths. -/
theorem c5_theorem (ps : List (List Char × Char)) (s : String)
    (hform : goodCigarForm ps = true) (hs : s.data = renderCigarL ps) :
    (parse_cigar s).bind List.getLast? =
      some (sumTargetLens ps, sumQueryLens ps) := by
  have hmid : ps.all (fun pr => decide (pr.2 = 'M') || decide (pr.2 = 'I') ||
      decide (pr.2 = 'D')) = true := by
    rw [List.all_eq_true]
    intro pr hpr
    have h2 := List.all_eq_true.mp hform pr hpr
    simp only [Bool.and_eq_true] at h2
    exact h2.2
  rw [parse_cigar, hs,
    show tokenizeCigar (renderCigarL ps) = cigTokensOf ps from tok_render ps hform,
    pairUp_cigTokens]
  have h := c5_go ps 0 0 [] hmid
  simpa using h

/-- Claim C5, witness at the CIGAR string 4M2I3M: the final column is (9, 7)
and the full matrix is [(0,0),(4,4),(6,4),(9,7)]. -/
theorem c5_witness :
    (parse_cigar "4M2I3M").bind List.getLast? = some (9, 7) ∧
    parse_cigar "4M2I3M" = some [(0, 0), (4, 4), (6, 4), (9, 7)] := by
  constructor
  · have h := c5_theorem [(['4'], 'M'), (['2'], 'I'), (['3'], 'M')] "4M2I3M"
      (by decide) (by decide)
    rw [h]
    decide
  · decide

/-- Claim C6: whenever the rebasing of a decoded matrix with query offsets
succeeds, the query row of the result is the spec transform: forward strand
adds query_start to every value, reverse strand replaces each value v with
query_start - v + 1, so query_start 100 with query_end 80 sends 10 to 91. -/
theorem c6_theorem (program : String) (qs qe : Int) (ts : Option Int)
    (trow qrow : List Int) (res : List Int × List Int)
    (h : rebaseCoordinates program (some qs) (some qe) ts (some (trow, qrow)) =
      Res.ok (some res)) :
    res.2 = queryRebaseSpec qs qe qrow := by
  simp only [rebaseCoordinates] at h
  by_cases hp : program = "TBLASTN" ∨ program = "TBLASTX"
  · rw [if_pos hp] at h
    simp only [Res.ok.injEq, Option.some.injEq] at h
    rw [← h]
    rfl
  · rw [if_neg hp] at h
    cases ts with
    | none => simp at h
    | some t =>
      simp only [Res.ok.injEq, Option.some.injEq] at h
      rw [← h]
      rfl

/-- Claim C6, witness: rebasing with query_start 100 and query_end 80 maps
the local query value 10 to 91. -/
theorem c6_witness :
    rebaseCoordinates "TBLASTN" (some 100) (some 80) none (some ([0], [10])) =
      Res.ok (some ([0], [91])) ∧
    (([0], [91]) : List Int × List Int).2 = queryRebaseSpec 100 80 [10] :=
  ⟨by decide, c6_theorem "TBLASTN" 100 80 none [0] [10] ([0], [91]) (by decide)⟩

/-- Claim C7, counterexample: parse_cigar does not return a matrix for every
input string: on the input ID the int() conversion of the length-position
token raises ValueError (modelled as none). -/
theorem c7_counterexample : parse_cigar "ID" = none := by decide

/-- Claim C7, amended: parse_btop returns for every input a matrix with at
least one column, first column (0,0) and both rows non-decreasing, and the
empty BTOP string yields exactly the origin column; parse_cigar has the same
properties whenever it returns a matrix at all (it raises ValueError on
inputs such as ID), and the empty CIGAR string also yields the origin. -/
theorem c7_theorem :
    (∀ s : String, parse_btop s ≠ [] ∧ (parse_btop s).head? = some (0, 0) ∧
      monoCols (parse_btop s) = true) ∧
    parse_btop "" = [(0, 0)] ∧
    (∀ (s : String) (cols : List (Nat × Nat)), parse_cigar s = some cols →
      cols ≠ [] ∧ cols.head? = some (0, 0) ∧ monoCols cols = true) ∧
    parse_cigar "" = some [(0, 0)] := by
  refine ⟨?_, by decide, ?_, by decide⟩
  · intro s
    have h := btopGo_mono (tokenizeBtop s.data) (0, 0) [] PState.NONE
      (fun hne => absurd rfl hne) rfl
    exact ⟨h.1, h.2.1, h.2.2⟩
  · intro s cols hcols
    rw [parse_cigar, cigarGo_eq] at hcols
    cases hcc : cigarCols (pairUp (tokenizeCigar s.data)) (0, 0) with
    | none => rw [hcc] at hcols; simp at hcols
    | some out =>
      rw [hcc] at hcols
      simp only [Option.map_some', Option.some.injEq, List.reverse_cons,
        List.reverse_nil, List.nil_append, List.singleton_append] at hcols
      subst hcols
      exact ⟨by simp, rfl, cigarCols_mono (pairUp (tokenizeCigar s.data)) (0, 0) out hcc⟩

/-- Claim C7, witness at the BTOP string 5AA3 and the CIGAR string 4M. -/
theorem c7_witness :
    parse_btop "5AA3" ≠ [] ∧ monoCols (parse_btop "5AA3") = true ∧
    ([(0, 0), (4, 4)] : List (Nat × Nat)).head? = some (0, 0) ∧
    monoCols [(0, 0), (4, 4)] = true := by
  have hb := c7_theorem.1 "5AA3"
  have hc := c7_theorem.2.2.1 "4M" [(0, 0), (4, 4)] (by decide)
  exact ⟨hb.1, hb.2.2, hc.2.1, hc.2.2⟩

/-- Claim C8, counterexample: a TBLASTX row with the query substring AC-G and
offsets 10 and 14 (stripped length 3, offset span 4) does not fail: the
sequence reconstruction succeeds with the stripped string and performs no
length check on that branch. -/
theorem c8_counterexample :
    reconstructQuerySeq "TBLASTX" (some "AC-G") (some 10) (some 14) none =
      Res.ok (SeqRep.full "ACG") := by decide

/-- Claim C8, amended: the length assertion applies only on the checked
branches, a TBLASTN query substring and a target substring under a program
other than TBLASTN and TBLASTX with both offsets present; on those branches a
substring whose stripped length differs from end minus start fails with
AssertionError and no record is produced.  The TBLASTX query branch performs
no such check, as the counterexample shows. -/
theorem c8_theorem (p : String) (hp : ¬(p = "TBLASTN" ∨ p = "TBLASTX"))
    (seq : String) (s e : Int) (size : Option Int)
    (h : ((stripDashes seq).length : Int) ≠ e - s) :
    reconstructQuerySeq "TBLASTN" (some seq) (some s) (some e) size =
      Res.err "AssertionError" ∧
    reconstructTargetSeq p (some seq) (some s) (some e) =
      Res.err "AssertionError" := by
  constructor
  · simp only [reconstructQuerySeq]
    rw [if_pos trivial, if_neg h]
  · simp only [reconstructTargetSeq]
    rw [if_neg hp, if_neg h]

/-- Claim C8, witness at the substring AC-G with offsets 10 and 14 under
TBLASTN (query) and FASTA (target). -/
theorem c8_witness :
    reconstructQuerySeq "TBLASTN" (some "AC-G") (some 10) (some 14) none =
      Res.err "AssertionError" ∧
    reconstructTargetSeq "FASTA" (some "AC-G") (some 10) (some 14) =
      Res.err "AssertionError" :=
  c8_theorem "FASTA" (by decide) "AC-G" 10 14 none (by decide)

/-- Claim C9: a row whose value count differs from the declared field-name
count fails the assertion before any field is dispatched, whatever the field
names and values are, and no alignment record is produced. -/
theorem c9_theorem (ctx : RowCtx) (fields columns : List String)
    (h : columns.length ≠ fields.length) :
    readRow ctx fields columns = Res.err "AssertionError" := by
  rw [readRow, if_neg h]

/-- Claim C9, witness: one declared field with an empty value list fails. -/
theorem c9_witness :
    readRow ⟨"TBLASTN", none, none, none⟩ ["query id"] [] =
      Res.err "AssertionError" :=
  c9_theorem ⟨"TBLASTN", none, none, none⟩ ["query id"] [] (by decide)

/-- Claim C10, counterexample: parse_cigar can raise on malformed input: on
the input MM the int() conversion of the length-position token M raises
ValueError (modelled as none). -/
theorem c10_counterexample : parse_cigar "MM" = none := by decide

/-- Claim C10, amended: tokenization silently skips characters that are
neither decimal digits nor M, I, D, and a trailing unpaired token is
discarded, so 4M3 and 4%M decode to the same matrix as 4M; but parse_cigar is
not total: a non-numeric token in length position, as in MM, raises
ValueError. -/
theorem c10_theorem :
    parse_cigar "4M3" = parse_cigar "4M" ∧
    parse_cigar "4M" = some [(0, 0), (4, 4)] ∧
    parse_cigar "4%M" = some [(0, 0), (4, 4)] ∧
    parse_cigar "MM" = none := by decide

end BioTabular
